import Mathlib

/-!
Shallow embedding of `crates/test_utils_solana/src/test_validator_runner.rs`:
the process-wide port registry (`USED_PORTS`, `is_port_available`,
`mark_port_used`, `free_port`), the random port search (`find_ports`,
`TestValidatorPorts::try_random_ports`), the staged startup orchestration
(`TestValidatorRunner::run_internal` / `run`), the genesis account seeding,
and the teardown (`impl Drop for TestValidatorRunner`).

Ports are `u16` values in Rust; they are embedded as `Nat`.  Every arithmetic
operation the source performs on ports stays below `u16::MAX` (the random base
is drawn from `1000..(65535 - 25)`, and at most `23` is added to it), so plain
`Nat` arithmetic is faithful — no wrap-around can occur.  Pubkeys (addresses)
are opaque in the source and are embedded as `Nat`.
-/

namespace TestValidatorRunnerModel

/-- Addresses (`Pubkey`) are opaque 32-byte values; embedded as `Nat`. -/
abbrev Addr := Nat

/-- `AccountSharedData::new(lamports, space, owner)`: the only constructor the
runner uses — lamports, data length, owner program. -/
structure AccountSharedData where
  lamports : Nat
  space : Nat
  owner : Addr
  deriving DecidableEq, Repr

/-- `AccountSharedData::new` from the source. -/
def AccountSharedData.new (lamports space : Nat) (owner : Addr) : AccountSharedData :=
  { lamports := lamports, space := space, owner := owner }

/-- `sol_to_lamports(sol)` restricted to whole numbers of SOL: the source calls
it only at `5.0`, `500.0`, `1_000_000.0`, which are exactly representable and
exactly multiplied in `f64`, so the `Nat` model is faithful on these inputs.
One SOL is `1_000_000_000` lamports. -/
def sol_to_lamports (sol : Nat) : Nat := sol * 1000000000

/-- `TestValidatorPorts` (source lines 127-137): rpc, pubsub and faucet ports
plus an inclusive gossip port range. -/
structure TestValidatorPorts where
  rpc : Nat
  pubsub : Nat
  faucet : Nat
  gossip_range : Nat × Nat
  deriving DecidableEq, Repr

/-- The process-wide `USED_PORTS` registry: a set of in-use ports guarded by a
mutex.  Each registry operation in the source takes the lock, performs one
membership test / insert / remove, and releases it; the embedding is the
sequence of those atomic operations on a `Finset Nat`. -/
abbrev PortRegistry := Finset Nat

/-- `mark_port_used(port)` (source lines 331-334): insert into `USED_PORTS`. -/
def mark_port_used (port : Nat) (reg : PortRegistry) : PortRegistry :=
  insert port reg

/-- `free_port(port)` (source lines 336-339): remove from `USED_PORTS`. -/
def free_port (port : Nat) (reg : PortRegistry) : PortRegistry :=
  reg.erase port

/-- `is_port_available(port)` (source lines 325-329): the OS-level probe
`is_local_ipv4_port_free` (environment input `osFree`) AND absence from the
registry. -/
def is_port_available (osFree : Nat → Bool) (reg : PortRegistry) (port : Nat) : Bool :=
  osFree port && !(decide (port ∈ reg))

/-- The inclusive list of gossip ports `start..=end` iterated by the source. -/
def gossipList (lo hi : Nat) : List Nat :=
  (List.range (hi + 1 - lo)).map (· + lo)

/-- All ports of a `TestValidatorPorts`, in the order the source touches them:
rpc, pubsub, faucet, then the inclusive gossip range. -/
def portsList (ps : TestValidatorPorts) : List Nat :=
  ps.rpc :: ps.pubsub :: ps.faucet :: gossipList ps.gossip_range.1 ps.gossip_range.2

/-- The same ports as a set. -/
def portsOf (ps : TestValidatorPorts) : Finset Nat :=
  insert ps.rpc (insert ps.pubsub (insert ps.faucet
    (Finset.Icc ps.gossip_range.1 ps.gossip_range.2)))

/-- Marking stage of `run_internal` (source lines 196-202): `mark_port_used`
on rpc, pubsub, faucet, then on every port of `gossip_range.0..=gossip_range.1`. -/
def markAllPorts (ps : TestValidatorPorts) (reg : PortRegistry) : PortRegistry :=
  (gossipList ps.gossip_range.1 ps.gossip_range.2).foldl
    (fun acc p => mark_port_used p acc)
    (mark_port_used ps.faucet (mark_port_used ps.pubsub (mark_port_used ps.rpc reg)))

/-- Teardown (`impl Drop for TestValidatorRunner`, source lines 310-320):
`free_port` on rpc, pubsub, faucet, then on every gossip-range port. -/
def freeAllPorts (ps : TestValidatorPorts) (reg : PortRegistry) : PortRegistry :=
  (gossipList ps.gossip_range.1 ps.gossip_range.2).foldl
    (fun acc p => free_port p acc)
    (free_port ps.faucet (free_port ps.pubsub (free_port ps.rpc reg)))

/-- One candidate of `find_ports` (source lines 348-351): from a random base,
derive `(base, base+1, base+2, (base+3, base+23))`. -/
def candidateOf (base : Nat) : Nat × Nat × Nat × (Nat × Nat) :=
  (base, base + 1, base + 2, (base + 3, base + 3 + 20))

/-- The availability conjunction of `find_ports` (source lines 353-356). -/
def candidateFree (avail : Nat → Bool) (base : Nat) : Bool :=
  avail base && avail (base + 1) && avail (base + 2)
    && (gossipList (base + 3) (base + 3 + 20)).all avail

/-- `find_ports()` (source lines 341-365).  The loop draws a fresh random base
per attempt and gives up after 100 attempts; the embedding takes the stream of
random draws as an explicit list (the caller supplies at most 100 of them) and
the availability check `avail` (one `is_port_available` per port, the registry
unchanged throughout the search since the search never marks). -/
def find_ports (avail : Nat → Bool) : List Nat → Option (Nat × Nat × Nat × (Nat × Nat))
  | [] => none
  | base :: rest =>
    if candidateFree avail base then some (candidateOf base) else find_ports avail rest

/-- `TestValidatorPorts::try_random_ports()` (source lines 146-155): package a
successful `find_ports` tuple into a `TestValidatorPorts`. -/
def try_random_ports (avail : Nat → Bool) (draws : List Nat) : Option TestValidatorPorts :=
  (find_ports avail draws).map (fun t =>
    { rpc := t.1, pubsub := t.2.1, faucet := t.2.2.1, gossip_range := t.2.2.2 })

/-- `TestProgramInfo` (source lines 98-107); the binary path is opaque. -/
structure TestProgramInfo where
  program_id : Addr
  program_path : Nat
  upgrade_authority : Addr
  loader : Addr
  deriving DecidableEq, Repr

/-- Modelled from the spec: the clock/epoch schedule override is an opaque
descriptor of the external validator crate (`EpochSchedule` lives outside this
repository); the runner only passes it through, so it is embedded as an opaque
wrapper whose default stands for the standard schedule. -/
structure EpochSchedule where
  raw : Nat := 0
  deriving DecidableEq, Repr

/-- The commitment levels of the client, lowest first.  The enum itself is
declared in the external SDK crate; the runner only passes the value through. -/
inductive CommitmentLevel where
  | processed
  | confirmed
  | finalized
  deriving DecidableEq, Repr

/-- Modelled from the spec: the default commitment level — the `Default`
implementation lives in the external SDK crate, absent from `src/`; the spec
gives the default as the lowest level (Processed). -/
def CommitmentLevel.default : CommitmentLevel := .processed

/-- `TestValidatorRunnerProps` (source lines 33-66).  The caller-supplied
`accounts: HashMap<Pubkey, AccountSharedData>` is embedded as an association
list with (when needed) pairwise-distinct keys, which is what a `HashMap` is. -/
structure TestValidatorRunnerProps where
  ports : TestValidatorPorts
  programs : List TestProgramInfo
  pubkeys : List Addr
  initial_lamports : Nat
  commitment : CommitmentLevel
  accounts : List (Addr × AccountSharedData)
  warp_slot : Nat
  epoch_schedule : EpochSchedule
  deriving DecidableEq, Repr

/-- `TestValidatorRunnerProps::builder().build()` with every field left at its
declared `#[builder(default ...)]` (source lines 33-72): random ports (the
allocation input is explicit here), no programs, no funded pubkeys,
`sol_to_lamports(5.0)` initial lamports, the default commitment, no custom
accounts, warp slot 1000, default epoch schedule. -/
def defaultProps (avail : Nat → Bool) (draws : List Nat) : Option TestValidatorRunnerProps :=
  (try_random_ports avail draws).map (fun ps =>
    { ports := ps
      programs := []
      pubkeys := []
      initial_lamports := sol_to_lamports 5
      commitment := CommitmentLevel.default
      accounts := []
      warp_slot := 1000
      epoch_schedule := {} })

/-- The genesis descriptor assembled by `run_internal` (source lines 221-240):
ports, rpc flags elided (constants), warp slot, epoch schedule, programs, and
the account seeding list in insertion order. -/
structure GenesisDescriptor where
  rpc_port : Nat
  gossip_port : Nat
  port_range : Nat × Nat
  warp_slot : Nat
  epoch_schedule : EpochSchedule
  programs : List TestProgramInfo
  accounts : List (Addr × AccountSharedData)
  deriving DecidableEq, Repr

/-- The genesis seeding list in the order the source issues it (lines 235-240):
`add_account(faucet_pubkey, 1_000_000 SOL system account)`, then
`add_accounts(funded_accounts)` (one `AccountSharedData::new(initial_lamports,
0, Pubkey::default())` per entry of `pubkeys`), then `add_accounts(accounts)`. -/
def seedEntries (props : TestValidatorRunnerProps) (faucetPubkey : Addr) :
    List (Addr × AccountSharedData) :=
  (faucetPubkey, AccountSharedData.new (sol_to_lamports 1000000) 0 0)
    :: (props.pubkeys.map (fun pk => (pk, AccountSharedData.new props.initial_lamports 0 0)))
    ++ props.accounts

/-- Modelled from the spec: `TestValidatorGenesis::add_account`/`add_accounts`
belong to the external validator crate; per the spec the accounts are merged
keyed by address with later entries overwriting earlier ones of the same key
(last-write-wins), so the effective state is the LAST entry for each address. -/
def seedLookup : List (Addr × AccountSharedData) → Addr → Option AccountSharedData
  | [], _ => none
  | e :: rest, a =>
    match seedLookup rest a with
    | some v => some v
    | none => if e.1 = a then some e.2 else none

/-- `buildGenesis` mirrors the builder-call chain of source lines 221-240. -/
def buildGenesis (props : TestValidatorRunnerProps) (faucetPubkey : Addr) :
    GenesisDescriptor :=
  { rpc_port := props.ports.rpc
    gossip_port := props.ports.gossip_range.1
    port_range := props.ports.gossip_range
    warp_slot := props.warp_slot
    epoch_schedule := props.epoch_schedule
    programs := props.programs
    accounts := seedEntries props faucetPubkey }

/-- Observable stage events of one `run_internal` execution, in source order. -/
inductive Event where
  | markPort (p : Nat)
  | startFaucet
  | faucetAck
  | buildGenesis
  | startValidator
  | buildClient
  | warmup
  deriving DecidableEq, Repr

/-- The environment a `run_internal` execution observes: the fresh faucet
keypair it generates, the faucet thread's one-shot acknowledgment
(`none` = channel closed before any message, `some none` = the faucet reported
an error, `some (some ())` = bound successfully), the mint keypair returned by
`TestValidatorGenesis::start_async`, and whether the warm-up
`request_airdrop` succeeds. -/
structure Env where
  faucetPubkey : Addr
  faucetAck : Option (Option Unit)
  mintPubkey : Addr
  airdropOk : Bool

/-- The outcome of an execution: a value, a typed error propagated with `?`,
or a Rust panic (`unwrap` / `expect`). -/
inductive Outcome (α : Type) where
  | ok (a : α)
  | err
  | panicked
  deriving DecidableEq, Repr

def Outcome.isOk {α : Type} : Outcome α → Bool
  | .ok _ => true
  | _ => false

def Outcome.isPanicked {α : Type} : Outcome α → Bool
  | .panicked => true
  | _ => false

/-- `TestValidatorRunner` (source lines 163-176): the handle owns the genesis
descriptor, its ports, the validator handle (opaque), the mint keypair and the
rpc client (represented by its commitment configuration). -/
structure RunnerHandle where
  genesis : GenesisDescriptor
  ports : TestValidatorPorts
  mintPubkey : Addr
  commitment : CommitmentLevel
  deriving DecidableEq, Repr

/-- `TestValidatorRunner::run_internal` (source lines 179-265), as a function
from the environment, the props and the pre-state of the port registry to the
emitted event trace, the post-state of the registry and the outcome:

1. mark rpc, pubsub, faucet and every gossip-range port used (lines 196-202);
2. start the faucet thread (line 207) and block on the ack channel
   (lines 209-212): a closed channel or a faucet error PANICS via `expect`;
3. build the genesis descriptor (lines 221-240);
4. `start_async` the validator (line 242);
5. construct the rpc client (lines 244-248);
6. warm-up airdrop of 500 SOL to the mint pubkey (lines 253-254): a failure is
   propagated with `?` as a typed error;
7. assemble and return the handle (lines 256-264). -/
def run_internal (env : Env) (props : TestValidatorRunnerProps) (reg : PortRegistry) :
    List Event × PortRegistry × Outcome RunnerHandle :=
  let reg1 := markAllPorts props.ports reg
  let evMarks := (portsList props.ports).map Event.markPort
  match env.faucetAck with
  | none => (evMarks ++ [Event.startFaucet], reg1, Outcome.panicked)
  | some none => (evMarks ++ [Event.startFaucet], reg1, Outcome.panicked)
  | some (some _) =>
    let g := buildGenesis props env.faucetPubkey
    let ev := evMarks ++ [Event.startFaucet, Event.faucetAck, Event.buildGenesis,
      Event.startValidator, Event.buildClient, Event.warmup]
    if env.airdropOk then
      (ev, reg1, Outcome.ok
        { genesis := g
          ports := props.ports
          mintPubkey := env.mintPubkey
          commitment := props.commitment })
    else
      (ev, reg1, Outcome.err)

/-- `TestValidatorRunner::run` (source lines 277-279): `run_internal(...).unwrap()`
— a typed error from `run_internal` becomes a panic, a panic propagates. -/
def run (env : Env) (props : TestValidatorRunnerProps) (reg : PortRegistry) :
    List Event × PortRegistry × Outcome RunnerHandle :=
  let r := run_internal env props reg
  match r.2.2 with
  | Outcome.ok h => (r.1, r.2.1, Outcome.ok h)
  | _ => (r.1, r.2.1, Outcome.panicked)

/-- The full stage trace of a successful run, in the source's fixed order. -/
def canonicalTrace (ps : TestValidatorPorts) : List Event :=
  (portsList ps).map Event.markPort ++ [Event.startFaucet, Event.faucetAck,
    Event.buildGenesis, Event.startValidator, Event.buildClient, Event.warmup]

/-! ### Concurrent allocation attempts

An allocation attempt consists of two critical sections on the shared
registry: the availability check inside `find_ports` (each
`is_port_available` takes the lock, but the whole search holds no lock), and
the later `mark_port_used` calls of `run_internal`.  An attempt is a small
state machine: `ready` (about to search), `checked` (search succeeded with a
candidate, not yet marked), `done` (candidate marked — the PortSet is
returned and live), `failed` (search exhausted its draws).  A scheduler
interleaves the steps of two attempts. -/

inductive AllocPhase where
  | ready
  | checked (ps : TestValidatorPorts)
  | done (ps : TestValidatorPorts)
  | failed
  deriving DecidableEq, Repr

/-- One step of an allocation attempt with random stream `draws`: from
`ready`, run the `find_ports` search against the current registry; from
`checked`, mark every port of the candidate used (source lines 196-202). -/
def allocStep (osFree : Nat → Bool) (draws : List Nat) :
    AllocPhase × PortRegistry → AllocPhase × PortRegistry
  | (.ready, reg) =>
    match try_random_ports (is_port_available osFree reg) draws with
    | some ps => (.checked ps, reg)
    | none => (.failed, reg)
  | (.checked ps, reg) => (.done ps, markAllPorts ps reg)
  | (st, reg) => (st, reg)

/-- Joint state of two concurrent allocation attempts over the shared
registry. -/
structure TwoAlloc where
  ph1 : AllocPhase
  ph2 : AllocPhase
  reg : PortRegistry

/-- Run a schedule: `true` steps attempt 1, `false` steps attempt 2. -/
def runSched (osFree : Nat → Bool) (draws1 draws2 : List Nat) :
    List Bool → TwoAlloc → TwoAlloc
  | [], s => s
  | true :: rest, s =>
    let r := allocStep osFree draws1 (s.ph1, s.reg)
    runSched osFree draws1 draws2 rest { ph1 := r.1, ph2 := s.ph2, reg := r.2 }
  | false :: rest, s =>
    let r := allocStep osFree draws2 (s.ph2, s.reg)
    runSched osFree draws1 draws2 rest { ph1 := s.ph1, ph2 := r.1, reg := r.2 }

/-! ### Handle lifetime and teardown

`TestValidatorRunner` derives `Clone` (source line 163) and its ports field is
`Copy`; `Drop` (source lines 310-320) frees the ports unconditionally when any
one value is dropped.  The lifetime model tracks the list of live handle
values (each identified by its `TestValidatorPorts`, the only handle state the
registry interacts with) next to the registry. -/

structure HandleSys where
  live : List TestValidatorPorts
  reg : PortRegistry

/-- Cloning the `i`-th live handle (`#[derive(Clone)]`): a new live value with
the same ports; the registry is untouched. -/
def HandleSys.cloneAt (s : HandleSys) (i : Nat) : HandleSys :=
  match s.live[i]? with
  | some ps => { live := ps :: s.live, reg := s.reg }
  | none => s

/-- Dropping the `i`-th live handle (`impl Drop`, source lines 310-320): the
value ceases to be live and every port of its PortSet is freed,
unconditionally. -/
def HandleSys.dropAt (s : HandleSys) (i : Nat) : HandleSys :=
  match s.live[i]? with
  | some ps => { live := s.live.eraseIdx i, reg := freeAllPorts ps s.reg }
  | none => s

/-! ### Sample values used by concrete evaluations -/

/-- The explicit PortSet of the spec's double-reservation scenario. -/
def samplePorts : TestValidatorPorts :=
  { rpc := 18899, pubsub := 18900, faucet := 19900, gossip_range := (18001, 18021) }

/-- The candidate PortSet `find_ports` derives from base 2000. -/
def racePorts : TestValidatorPorts :=
  { rpc := 2000, pubsub := 2001, faucet := 2002, gossip_range := (2003, 2023) }

/-- The candidate PortSet `find_ports` derives from base 3000. -/
def racePorts2 : TestValidatorPorts :=
  { rpc := 3000, pubsub := 3001, faucet := 3002, gossip_range := (3003, 3023) }

/-- A sample configuration with the scenario's explicit ports. -/
def sampleProps : TestValidatorRunnerProps :=
  { ports := samplePorts
    programs := []
    pubkeys := [7]
    initial_lamports := 2000000000
    commitment := CommitmentLevel.processed
    accounts := []
    warp_slot := 1000
    epoch_schedule := {} }

/-- A configuration with two funded pubkeys and one caller-supplied account,
for concrete genesis-seeding evaluations. -/
def seedProps : TestValidatorRunnerProps :=
  { ports := samplePorts
    programs := []
    pubkeys := [7, 8]
    initial_lamports := 2000000000
    commitment := CommitmentLevel.processed
    accounts := [(9, AccountSharedData.new 42 0 3)]
    warp_slot := 1000
    epoch_schedule := {} }

/-- An environment in which every collaborator succeeds. -/
def sampleEnv : Env :=
  { faucetPubkey := 11, faucetAck := some (some ()), mintPubkey := 12, airdropOk := true }

/-- An environment in which the warm-up airdrop fails. -/
def airdropFailEnv : Env :=
  { faucetPubkey := 11, faucetAck := some (some ()), mintPubkey := 12, airdropOk := false }

/-- An environment in which the faucet acknowledgment channel closes without a
message. -/
def faucetClosedEnv : Env :=
  { faucetPubkey := 11, faucetAck := none, mintPubkey := 12, airdropOk := true }

/-- A system with one live handle whose ports are reserved (the state right
after a successful `run`). -/
def sysLive : HandleSys :=
  { live := [samplePorts], reg := markAllPorts samplePorts ∅ }

/-! ## Helper lemmas -/

lemma mem_gossipList {lo hi p : Nat} : p ∈ gossipList lo hi ↔ lo ≤ p ∧ p ≤ hi := by
  simp only [gossipList, List.mem_map, List.mem_range]
  constructor
  · rintro ⟨a, ha, rfl⟩
    omega
  · rintro ⟨h1, h2⟩
    exact ⟨p - lo, by omega, by omega⟩

lemma gossipList_nodup (lo hi : Nat) : (gossipList lo hi).Nodup := by
  refine List.Nodup.map ?_ (List.nodup_range _)
  intro a b h
  dsimp at h
  omega

lemma mem_foldl_mark (l : List Nat) (init : Finset Nat) (p : Nat) :
    p ∈ l.foldl (fun acc q => mark_port_used q acc) init ↔ p ∈ l ∨ p ∈ init := by
  induction l generalizing init with
  | nil => simp
  | cons a t ih =>
    rw [List.foldl_cons, ih]
    simp only [mark_port_used, Finset.mem_insert, List.mem_cons]
    tauto

lemma mem_foldl_free (l : List Nat) (init : Finset Nat) (p : Nat) :
    p ∈ l.foldl (fun acc q => free_port q acc) init ↔ p ∈ init ∧ p ∉ l := by
  induction l generalizing init with
  | nil => simp
  | cons a t ih =>
    rw [List.foldl_cons, ih]
    simp only [free_port, Finset.mem_erase, List.mem_cons]
    tauto

lemma mem_markAllPorts {ps : TestValidatorPorts} {reg : PortRegistry} {p : Nat} :
    p ∈ markAllPorts ps reg ↔ p ∈ portsOf ps ∨ p ∈ reg := by
  rw [markAllPorts, mem_foldl_mark]
  simp only [mark_port_used, Finset.mem_insert, portsOf, Finset.mem_Icc, mem_gossipList]
  tauto

lemma mem_freeAllPorts {ps : TestValidatorPorts} {reg : PortRegistry} {p : Nat} :
    p ∈ freeAllPorts ps reg ↔ p ∈ reg ∧ p ∉ portsOf ps := by
  rw [freeAllPorts, mem_foldl_free]
  simp only [free_port, Finset.mem_erase, portsOf, Finset.mem_insert, Finset.mem_Icc,
    mem_gossipList]
  tauto

lemma markAllPorts_eq_of_subset {ps : TestValidatorPorts} {reg : PortRegistry}
    (h : portsOf ps ⊆ reg) : markAllPorts ps reg = reg := by
  ext p
  simp only [mem_markAllPorts]
  exact ⟨fun hp => hp.elim (fun hp => h hp) id, Or.inr⟩

lemma mem_portsList {ps : TestValidatorPorts} {p : Nat} :
    p ∈ portsList ps ↔ p ∈ portsOf ps := by
  simp [portsList, portsOf, mem_gossipList, Finset.mem_Icc]

lemma find_ports_eq_some {avail : Nat → Bool} {draws : List Nat}
    {t : Nat × Nat × Nat × (Nat × Nat)} (h : find_ports avail draws = some t) :
    ∃ base ∈ draws, candidateFree avail base = true ∧ t = candidateOf base := by
  induction draws with
  | nil => simp [find_ports] at h
  | cons b rest ih =>
    by_cases hb : candidateFree avail b
    · rw [find_ports, if_pos hb] at h
      exact ⟨b, List.mem_cons_self b rest, hb, (Option.some_injective _ h).symm⟩
    · rw [find_ports, if_neg hb] at h
      obtain ⟨base, hmem, hc, ht⟩ := ih h
      exact ⟨base, List.mem_cons_of_mem b hmem, hc, ht⟩

lemma try_random_ports_eq_some {avail : Nat → Bool} {draws : List Nat}
    {ps : TestValidatorPorts} (h : try_random_ports avail draws = some ps) :
    ∃ base ∈ draws, candidateFree avail base = true ∧
      ps = { rpc := base, pubsub := base + 1, faucet := base + 2,
             gossip_range := (base + 3, base + 23) } := by
  rw [try_random_ports] at h
  obtain ⟨t, ht, hmap⟩ := Option.map_eq_some'.mp h
  obtain ⟨base, hmem, hc, rfl⟩ := find_ports_eq_some ht
  refine ⟨base, hmem, hc, ?_⟩
  rw [← hmap]
  simp [candidateOf]

lemma try_random_ports_avail {avail : Nat → Bool} {draws : List Nat}
    {ps : TestValidatorPorts} (h : try_random_ports avail draws = some ps) :
    ∀ p ∈ portsList ps, avail p = true := by
  obtain ⟨base, -, hc, rfl⟩ := try_random_ports_eq_some h
  rw [candidateFree] at hc
  simp only [Bool.and_eq_true, List.all_eq_true] at hc
  intro p hp
  have h23 : base + 3 + 20 = base + 23 := by omega
  rw [portsList] at hp
  simp only [List.mem_cons, mem_gossipList] at hp
  rcases hp with rfl | rfl | rfl | hp
  · exact hc.1.1.1
  · exact hc.1.1.2
  · exact hc.1.2
  · refine hc.2 p ?_
    rw [h23, mem_gossipList]
    exact hp

lemma seedLookup_append (l1 l2 : List (Addr × AccountSharedData)) (a : Addr) :
    seedLookup (l1 ++ l2) a =
      match seedLookup l2 a with
      | some v => some v
      | none => seedLookup l1 a := by
  induction l1 with
  | nil =>
    cases h : seedLookup l2 a <;> simp [h, seedLookup]
  | cons e t ih =>
    rw [List.cons_append, seedLookup, ih]
    cases h2 : seedLookup l2 a <;> cases ht : seedLookup t a <;> simp [seedLookup, ht]

lemma seedLookup_eq_none {l : List (Addr × AccountSharedData)} {a : Addr}
    (h : a ∉ l.map Prod.fst) : seedLookup l a = none := by
  induction l with
  | nil => rfl
  | cons e t ih =>
    simp only [List.map_cons, List.mem_cons] at h
    push_neg at h
    rw [seedLookup, ih h.2]
    exact if_neg (fun he => h.1 he.symm)

lemma seedLookup_isSome {l : List (Addr × AccountSharedData)} {a : Addr} :
    (seedLookup l a).isSome = true ↔ a ∈ l.map Prod.fst := by
  induction l with
  | nil => simp [seedLookup]
  | cons e t ih =>
    rw [seedLookup]
    cases ht : seedLookup t a with
    | some v =>
      rw [ht] at ih
      simp only [Option.isSome_some, true_iff] at ih
      simp [List.mem_cons, ih]
    | none =>
      rw [ht] at ih
      simp only [Option.isSome_none, Bool.false_eq_true, false_iff] at ih
      by_cases he : e.1 = a
      · rw [if_pos he]
        simp only [Option.isSome_some, List.map_cons, List.mem_cons, true_iff]
        exact Or.inl he.symm
      · rw [if_neg he]
        simp only [Option.isSome_none, Bool.false_eq_true, false_iff, List.map_cons,
          List.mem_cons]
        rintro (rfl | hm)
        · exact he rfl
        · exact ih hm

lemma seedLookup_nodup_mem {l : List (Addr × AccountSharedData)} {k : Addr}
    {v : AccountSharedData} (hn : (l.map Prod.fst).Nodup) (hm : (k, v) ∈ l) :
    seedLookup l k = some v := by
  induction l with
  | nil => cases hm
  | cons e t ih =>
    simp only [List.map_cons, List.nodup_cons] at hn
    rcases List.mem_cons.mp hm with rfl | hmem
    · rw [seedLookup, seedLookup_eq_none hn.1]
      simp
    · rw [seedLookup, ih hn.2 hmem]

lemma seedLookup_map_const {pks : List Addr} {c : AccountSharedData} {a : Addr} :
    seedLookup (pks.map (fun pk => (pk, c))) a = if a ∈ pks then some c else none := by
  induction pks with
  | nil => simp [seedLookup]
  | cons p t ih =>
    rw [List.map_cons, seedLookup, ih]
    by_cases h : a ∈ t
    · simp [h, List.mem_cons]
    · by_cases h2 : p = a
      · simp [h, h2]
      · have hne : ¬a = p := fun hc => h2 hc.symm
        simp [h, h2, hne]

/-! ## Claim theorems -/

/-- Claim C7 (confirmed): every PortSet returned by a successful
`try_random_ports()` has the shape `rpc = base`, `pubsub = base + 1`,
`faucet = base + 2`, `gossip_range = (base + 3, base + 23)` for a base in
`[1000, 65535 - 25)`; consequently all 24 ports are pairwise distinct, the
gossip range is properly ordered and contains exactly 21 ports.  The
hypothesis on `draws` records what the source guarantees by construction:
every base is drawn by `rng.random_range(1000..u16::MAX - 25)`. -/
theorem try_random_ports_shape (avail : Nat → Bool) (draws : List Nat)
    (hdraws : ∀ b ∈ draws, 1000 ≤ b ∧ b < 65510) (ps : TestValidatorPorts)
    (h : try_random_ports avail draws = some ps) :
    ∃ base, 1000 ≤ base ∧ base < 65510 ∧
      ps.rpc = base ∧ ps.pubsub = base + 1 ∧ ps.faucet = base + 2 ∧
      ps.gossip_range = (base + 3, base + 23) ∧
      (portsList ps).Nodup ∧
      ps.gossip_range.1 < ps.gossip_range.2 ∧
      (Finset.Icc ps.gossip_range.1 ps.gossip_range.2).card = 21 := by
  obtain ⟨base, hmem, hc, rfl⟩ := try_random_ports_eq_some h
  obtain ⟨hlo, hhi⟩ := hdraws base hmem
  refine ⟨base, hlo, hhi, rfl, rfl, rfl, rfl, ?_, ?_, ?_⟩
  · rw [portsList]
    dsimp only
    rw [List.nodup_cons, List.nodup_cons, List.nodup_cons]
    simp only [List.mem_cons, mem_gossipList]
    exact ⟨by omega, by omega, by omega, gossipList_nodup _ _⟩
  · show base + 3 < base + 23
    omega
  · show (Finset.Icc (base + 3) (base + 23)).card = 21
    rw [Nat.card_Icc]
    omega

/-- Witness for C7: the all-free environment with the single draw 2000 yields
the PortSet derived from base 2000. -/
theorem try_random_ports_shape_witness :
    ∃ base, 1000 ≤ base ∧ base < 65510 ∧
      racePorts.rpc = base ∧ racePorts.pubsub = base + 1 ∧ racePorts.faucet = base + 2 ∧
      racePorts.gossip_range = (base + 3, base + 23) ∧
      (portsList racePorts).Nodup ∧
      racePorts.gossip_range.1 < racePorts.gossip_range.2 ∧
      (Finset.Icc racePorts.gossip_range.1 racePorts.gossip_range.2).card = 21 :=
  try_random_ports_shape (fun _ => true) [2000] (by decide) racePorts (by decide)

/-- Claim C8 (confirmed): `free_port` is idempotent — freeing twice equals
freeing once — and freeing a port absent from the registry leaves the
registry unchanged. -/
theorem free_port_idempotent (p : Nat) (reg : PortRegistry) :
    free_port p (free_port p reg) = free_port p reg ∧
    (p ∉ reg → free_port p reg = reg) := by
  constructor
  · simp [free_port, Finset.erase_idem]
  · intro h
    simp [free_port, Finset.erase_eq_of_not_mem h]

/-- Witness for C8 at port 5 and registry `{3}`. -/
theorem free_port_idempotent_witness :
    free_port 5 (free_port 5 ({3} : PortRegistry)) = free_port 5 ({3} : PortRegistry) ∧
    free_port 5 ({3} : PortRegistry) = ({3} : PortRegistry) :=
  ⟨(free_port_idempotent 5 {3}).1, (free_port_idempotent 5 {3}).2 (by decide)⟩

/-- Claim C5 (confirmed): releasing a handle removes exactly its rpc, pubsub,
faucet and gossip-range ports from the registry — any port outside the
PortSet keeps its membership — and release is idempotent; it is a total
function of the registry alone (it never fails and reads nothing about the
underlying services). -/
theorem drop_frees_exactly (ps : TestValidatorPorts) (reg : PortRegistry) :
    (∀ p, p ∈ freeAllPorts ps reg ↔ p ∈ reg ∧ p ∉ portsOf ps) ∧
    freeAllPorts ps (freeAllPorts ps reg) = freeAllPorts ps reg := by
  refine ⟨fun p => mem_freeAllPorts, ?_⟩
  ext p
  simp only [mem_freeAllPorts]
  tauto

/-- Witness for C5: releasing the scenario PortSet twice from a registry
holding exactly those ports equals releasing it once. -/
theorem drop_frees_exactly_witness :
    freeAllPorts samplePorts (freeAllPorts samplePorts (portsOf samplePorts)) =
      freeAllPorts samplePorts (portsOf samplePorts) :=
  (drop_frees_exactly samplePorts (portsOf samplePorts)).2

/-- Claim C10 (confirmed): a configuration built with every option left at
its default resolves to the documented values — `sol_to_lamports(5.0)` =
5 000 000 000 initial lamports, processed commitment, warp slot 1000, no
programs, no funded pubkeys, no custom accounts, the freshly allocated
random ports — and is the very same record as the configuration with each
default written out explicitly (hence behaviorally equivalent). -/
theorem default_props_explicit (avail : Nat → Bool) (draws : List Nat)
    (ps : TestValidatorPorts) (h : try_random_ports avail draws = some ps) :
    defaultProps avail draws = some
      { ports := ps
        programs := []
        pubkeys := []
        initial_lamports := 5000000000
        commitment := CommitmentLevel.processed
        accounts := []
        warp_slot := 1000
        epoch_schedule := { raw := 0 } } := by
  rw [defaultProps, h, Option.map_some']
  norm_num [sol_to_lamports, CommitmentLevel.default]

/-- Witness for C10 at the all-free environment and the single draw 2000. -/
theorem default_props_explicit_witness :
    defaultProps (fun _ => true) [2000] = some
      { ports := racePorts
        programs := []
        pubkeys := []
        initial_lamports := 5000000000
        commitment := CommitmentLevel.processed
        accounts := []
        warp_slot := 1000
        epoch_schedule := { raw := 0 } } :=
  default_props_explicit (fun _ => true) [2000] racePorts (by decide)

/-- Claim C4 (confirmed): within one run the stages happen in the strict
fixed order — the registry update marking every port of the PortSet is
applied first, whatever the later outcome, and the emitted stage trace is
always a prefix of the canonical order (mark each port, start faucet,
receive its acknowledgment, build genesis, start validator, construct
client, issue the warm-up request), equalling it exactly on success. -/
theorem run_internal_stage_order (env : Env) (props : TestValidatorRunnerProps)
    (reg : PortRegistry) :
    (run_internal env props reg).2.1 = markAllPorts props.ports reg ∧
    (∃ t, (run_internal env props reg).1 ++ t = canonicalTrace props.ports) ∧
    ((run_internal env props reg).2.2.isOk = true →
      (run_internal env props reg).1 = canonicalTrace props.ports) ∧
    canonicalTrace props.ports = (portsList props.ports).map Event.markPort ++
      [Event.startFaucet, Event.faucetAck, Event.buildGenesis, Event.startValidator,
        Event.buildClient, Event.warmup] := by
  rcases hA : env.faucetAck with - | (- | u)
  · refine ⟨by simp [run_internal, hA],
      ⟨[Event.faucetAck, Event.buildGenesis, Event.startValidator, Event.buildClient,
        Event.warmup], by simp [run_internal, hA, canonicalTrace]⟩, ?_, rfl⟩
    simp [run_internal, hA, Outcome.isOk]
  · refine ⟨by simp [run_internal, hA],
      ⟨[Event.faucetAck, Event.buildGenesis, Event.startValidator, Event.buildClient,
        Event.warmup], by simp [run_internal, hA, canonicalTrace]⟩, ?_, rfl⟩
    simp [run_internal, hA, Outcome.isOk]
  · by_cases hB : env.airdropOk
    · refine ⟨by simp [run_internal, hA, hB],
        ⟨[], by simp [run_internal, hA, hB, canonicalTrace]⟩, ?_, rfl⟩
      intro _
      simp [run_internal, hA, hB, canonicalTrace]
    · refine ⟨by simp [run_internal, hA, hB],
        ⟨[], by simp [run_internal, hA, hB, canonicalTrace]⟩, ?_, rfl⟩
      intro hok
      simp [run_internal, hA, hB, Outcome.isOk] at hok

/-- Witness for C4: with every collaborator succeeding, the sample run emits
exactly the canonical stage trace. -/
theorem run_internal_stage_order_witness :
    (run_internal sampleEnv sampleProps ∅).1 = canonicalTrace sampleProps.ports :=
  (run_internal_stage_order sampleEnv sampleProps ∅).2.2.1 (by decide)

/-- Claim C3 counterexample: with the warm-up probe failing — a stage failure
— `run_internal` does produce a typed error, but the public
`run(config)` is `run_internal(props).await.unwrap()` and PANICS instead of
handing the caller that typed error. -/
theorem run_panics_on_airdrop_failure :
    (run_internal airdropFailEnv sampleProps ∅).2.2 = Outcome.err ∧
    (run airdropFailEnv sampleProps ∅).2.2 = Outcome.panicked :=
  ⟨rfl, rfl⟩

/-- Claim C3 amended (corrected): `run_internal` yields a typed error only
for the warm-up failure; a closed or errored faucet acknowledgment panics
inside `run_internal` via `expect`, and the public `run` unwraps every
error into a panic.  The no-partially-usable-handle half of the claim
holds: an `ok` outcome of `run` carries the fully-populated handle and
occurs only when every stage succeeded. -/
theorem run_failure_amended (env : Env) (props : TestValidatorRunnerProps)
    (reg : PortRegistry) :
    ((env.faucetAck = none ∨ env.faucetAck = some none) →
      (run_internal env props reg).2.2 = Outcome.panicked) ∧
    (env.faucetAck = some (some ()) → env.airdropOk = false →
      (run_internal env props reg).2.2 = Outcome.err ∧
      (run env props reg).2.2 = Outcome.panicked) ∧
    (∀ h : RunnerHandle, (run env props reg).2.2 = Outcome.ok h →
      env.airdropOk = true ∧ h.ports = props.ports ∧
      h.genesis = buildGenesis props env.faucetPubkey ∧
      h.mintPubkey = env.mintPubkey ∧ h.commitment = props.commitment) := by
  refine ⟨?_, ?_, ?_⟩
  · rintro (hA | hA) <;> simp [run_internal, hA]
  · intro hA hB
    constructor <;> simp [run, run_internal, hA, hB]
  · intro h hok
    rcases hA : env.faucetAck with - | (- | u)
    · simp [run, run_internal, hA] at hok
    · simp [run, run_internal, hA] at hok
    · by_cases hB : env.airdropOk
      · have hval : (run env props reg).2.2 = Outcome.ok
            { genesis := buildGenesis props env.faucetPubkey
              ports := props.ports
              mintPubkey := env.mintPubkey
              commitment := props.commitment } := by
          simp [run, run_internal, hA, hB]
        rw [hval] at hok
        obtain rfl := (Outcome.ok.inj hok).symm
        exact ⟨hB, rfl, rfl, rfl, rfl⟩
      · simp [run, run_internal, hA, hB] at hok

/-- Witness for the C3 amended theorem: a closed faucet acknowledgment
channel makes `run_internal` panic. -/
theorem run_failure_amended_witness :
    (run_internal faucetClosedEnv sampleProps ∅).2.2 = Outcome.panicked :=
  (run_failure_amended faucetClosedEnv sampleProps ∅).1 (Or.inl rfl)

/-- Claim C1 counterexample: starting a second runner with the scenario's
explicit PortSet `{rpc = 18899, pubsub = 18900, faucet = 19900,
gossip = (18001, 18021)}` while every one of its ports is already reserved
in the registry does NOT fail: `run_internal` re-marks the ports (a no-op
on the set) and proceeds, returning a ready handle — no
port-already-reserved condition exists anywhere in the code. -/
theorem explicit_ports_double_reserved_ok :
    (run_internal sampleEnv sampleProps (portsOf samplePorts)).2.2.isOk = true ∧
    (run_internal sampleEnv sampleProps (portsOf samplePorts)).2.1 = portsOf samplePorts := by
  exact ⟨rfl, by decide⟩

/-- Claim C1 amended (corrected): an explicit PortSet is never validated
against the registry: `run_internal` marks every one of its ports
unconditionally — leaving a registry that already holds them unchanged —
and proceeds with startup, so when the later stages succeed the second
attempt succeeds outright instead of failing with a port-already-reserved
condition. -/
theorem explicit_ports_never_validated (env : Env) (props : TestValidatorRunnerProps)
    (reg : PortRegistry) (hsub : portsOf props.ports ⊆ reg)
    (hack : env.faucetAck = some (some ())) (hair : env.airdropOk = true) :
    (run_internal env props reg).2.2.isOk = true ∧
    (run_internal env props reg).2.1 = reg := by
  have h21 : (run_internal env props reg).2.1 = markAllPorts props.ports reg := by
    simp [run_internal, hack, hair]
  constructor
  · simp [run_internal, hack, hair, Outcome.isOk]
  · rw [h21, markAllPorts_eq_of_subset hsub]

/-- Witness for the C1 amended theorem at the scenario PortSet with all of
its ports pre-reserved. -/
theorem explicit_ports_never_validated_witness :
    (run_internal sampleEnv sampleProps (portsOf samplePorts)).2.2.isOk = true ∧
    (run_internal sampleEnv sampleProps (portsOf samplePorts)).2.1 = portsOf samplePorts :=
  explicit_ports_never_validated sampleEnv sampleProps (portsOf samplePorts)
    (Finset.Subset.refl _) rfl rfl

/-- Claim C6 counterexample: `TestValidatorRunner` derives `Clone` while
`Drop` frees its ports unconditionally — after cloning the live handle and
dropping just one copy, the other copy is still live yet the rpc port
18899 is gone from the registry, so a live copy does not keep its
PortSet reserved. -/
theorem clone_drop_loses_ports :
    ((sysLive.cloneAt 0).dropAt 0).live = [samplePorts] ∧
    samplePorts.rpc ∈ sysLive.reg ∧
    samplePorts.rpc ∉ ((sysLive.cloneAt 0).dropAt 0).reg := by
  refine ⟨rfl, by decide, by decide⟩

/-- Claim C6 amended (corrected): a handle's ports stay registered only
until the FIRST release of any of its copies: cloning never touches the
registry, and dropping any one live copy removes exactly the ports of its
PortSet — even while other copies remain live. -/
theorem handle_release_amended (s : HandleSys) (i : Nat) (ps : TestValidatorPorts)
    (h : s.live[i]? = some ps) :
    (s.cloneAt i).reg = s.reg ∧
    (s.dropAt i).reg = freeAllPorts ps s.reg ∧
    (∀ p, p ∈ (s.dropAt i).reg ↔ p ∈ s.reg ∧ p ∉ portsOf ps) := by
  refine ⟨?_, ?_, ?_⟩ <;> simp [HandleSys.cloneAt, HandleSys.dropAt, h, mem_freeAllPorts]

/-- Witness for the C6 amended theorem on the one-live-handle system. -/
theorem handle_release_amended_witness :
    (sysLive.cloneAt 0).reg = sysLive.reg ∧
    (sysLive.dropAt 0).reg = freeAllPorts samplePorts sysLive.reg :=
  ⟨(handle_release_amended sysLive 0 samplePorts rfl).1,
   (handle_release_amended sysLive 0 samplePorts rfl).2.1⟩

/-- Claim C9 (confirmed): the genesis descriptor seeds exactly one account
per funded address at `initial_lamports`, one account for the faucet
keypair's own operating balance (`sol_to_lamports(1_000_000.0)`, owned by
the system program — whose id is the zero pubkey, like `Pubkey::default()`),
and merges the caller-supplied raw accounts last, keyed by address with
last-write-wins, so a caller-supplied entry overwrites a funded-address or
faucet account at the same address.  The hypothesis `hfp` records that the
faucet keypair is freshly generated (its pubkey collides with no funded
address); `hkeys` records that the caller accounts come from a `HashMap`
(distinct keys). -/
theorem genesis_seeding (props : TestValidatorRunnerProps) (fp : Addr)
    (hfp : fp ∉ props.pubkeys)
    (hkeys : (props.accounts.map Prod.fst).Nodup) :
    (∀ a ∈ props.pubkeys, a ∉ props.accounts.map Prod.fst →
      seedLookup (buildGenesis props fp).accounts a =
        some (AccountSharedData.new props.initial_lamports 0 0)) ∧
    (fp ∉ props.accounts.map Prod.fst →
      seedLookup (buildGenesis props fp).accounts fp =
        some (AccountSharedData.new (sol_to_lamports 1000000) 0 0)) ∧
    (∀ k v, (k, v) ∈ props.accounts →
      seedLookup (buildGenesis props fp).accounts k = some v) ∧
    (∀ a, (seedLookup (buildGenesis props fp).accounts a).isSome = true ↔
      (a = fp ∨ a ∈ props.pubkeys ∨ a ∈ props.accounts.map Prod.fst)) := by
  have hacc : (buildGenesis props fp).accounts =
      (fp, AccountSharedData.new (sol_to_lamports 1000000) 0 0) ::
        (props.pubkeys.map
          (fun pk => (pk, AccountSharedData.new props.initial_lamports 0 0)) ++
          props.accounts) := by
    simp [buildGenesis, seedEntries]
  refine ⟨?_, ?_, ?_, ?_⟩
  · intro a ha hca
    rw [hacc, seedLookup, seedLookup_append, seedLookup_eq_none hca, seedLookup_map_const]
    simp [ha]
  · intro hca
    rw [hacc, seedLookup, seedLookup_append, seedLookup_eq_none hca, seedLookup_map_const]
    simp [hfp]
  · intro k v hm
    rw [hacc, seedLookup, seedLookup_append, seedLookup_nodup_mem hkeys hm]
  · intro a
    have hmf : (props.pubkeys.map
        (fun pk => (pk, AccountSharedData.new props.initial_lamports 0 0))).map Prod.fst =
        props.pubkeys := by
      induction props.pubkeys with
      | nil => rfl
      | cons p t ih => simp only [List.map_cons, ih]
    rw [hacc, seedLookup_isSome, List.map_cons, List.map_append, hmf]
    constructor
    · intro hmem
      rcases List.mem_cons.mp hmem with h | h
      · exact Or.inl h
      · rcases List.mem_append.mp h with h | h
        · exact Or.inr (Or.inl h)
        · exact Or.inr (Or.inr h)
    · rintro (rfl | h | h)
      · exact List.mem_cons_self _ _
      · exact List.mem_cons_of_mem _ (List.mem_append_left _ h)
      · exact List.mem_cons_of_mem _ (List.mem_append_right _ h)

/-- Witness for C9: in the two-funded-address configuration with faucet
pubkey 11, address 7 is seeded at the configured balance, the faucet
account is seeded at its operating balance, and the caller account at
address 9 wins the merge. -/
theorem genesis_seeding_witness :
    seedLookup (buildGenesis seedProps 11).accounts 7 =
      some (AccountSharedData.new 2000000000 0 0) ∧
    seedLookup (buildGenesis seedProps 11).accounts 11 =
      some (AccountSharedData.new (sol_to_lamports 1000000) 0 0) ∧
    seedLookup (buildGenesis seedProps 11).accounts 9 =
      some (AccountSharedData.new 42 0 3) :=
  ⟨(genesis_seeding seedProps 11 (by decide) (by decide)).1 7 (by decide) (by decide),
   (genesis_seeding seedProps 11 (by decide) (by decide)).2.1 (by decide),
   (genesis_seeding seedProps 11 (by decide) (by decide)).2.2.1 9
     (AccountSharedData.new 42 0 3) (by decide)⟩

/-- Claim C2 counterexample: the availability check and the marking are
separate critical sections, so the interleaving in which both attempts
check before either marks lets BOTH attempts finish `done` holding the very
same PortSet — two live allocations sharing every port (e.g. 2000). -/
theorem race_double_allocation :
    (runSched (fun _ => true) [2000] [2000] [true, false, true, false]
        { ph1 := AllocPhase.ready, ph2 := AllocPhase.ready, reg := ∅ }).ph1 =
      AllocPhase.done racePorts ∧
    (runSched (fun _ => true) [2000] [2000] [true, false, true, false]
        { ph1 := AllocPhase.ready, ph2 := AllocPhase.ready, reg := ∅ }).ph2 =
      AllocPhase.done racePorts ∧
    racePorts.rpc ∈ portsOf racePorts := by
  refine ⟨by decide, by decide, by decide⟩

/-- Claim C2 amended (corrected): when each attempt's availability check is
immediately followed by its marking — the schedule `[1, 1, 2, 2]`, i.e. the
check-then-mark pair runs atomically per attempt — two attempts that both
finish `done` never share a port; it is only the interleaving between one
attempt's check and its mark (the race the spec documents as accepted) that
can violate the invariant. -/
theorem atomic_allocation_disjoint (osFree : Nat → Bool) (draws1 draws2 : List Nat)
    (reg : PortRegistry) (ps1 ps2 : TestValidatorPorts)
    (h1 : (runSched osFree draws1 draws2 [true, true, false, false]
        { ph1 := AllocPhase.ready, ph2 := AllocPhase.ready, reg := reg }).ph1 =
      AllocPhase.done ps1)
    (h2 : (runSched osFree draws1 draws2 [true, true, false, false]
        { ph1 := AllocPhase.ready, ph2 := AllocPhase.ready, reg := reg }).ph2 =
      AllocPhase.done ps2) :
    Disjoint (portsOf ps1) (portsOf ps2) := by
  cases hq1 : try_random_ports (is_port_available osFree reg) draws1 with
  | none =>
    simp [runSched, allocStep, hq1] at h1
  | some q1 =>
    cases hq2 : try_random_ports (is_port_available osFree (markAllPorts q1 reg)) draws2 with
    | none =>
      simp [runSched, allocStep, hq1, hq2] at h2
    | some q2 =>
      have e1 : (runSched osFree draws1 draws2 [true, true, false, false]
          { ph1 := AllocPhase.ready, ph2 := AllocPhase.ready, reg := reg }).ph1 =
          AllocPhase.done q1 := by
        simp [runSched, allocStep, hq1, hq2]
      have e2 : (runSched osFree draws1 draws2 [true, true, false, false]
          { ph1 := AllocPhase.ready, ph2 := AllocPhase.ready, reg := reg }).ph2 =
          AllocPhase.done q2 := by
        simp [runSched, allocStep, hq1, hq2]
      obtain rfl : q1 = ps1 := AllocPhase.done.inj (e1.symm.trans h1)
      obtain rfl : q2 = ps2 := AllocPhase.done.inj (e2.symm.trans h2)
      rw [Finset.disjoint_left]
      intro p hp1 hp2
      have havail := try_random_ports_avail hq2 p (mem_portsList.mpr hp2)
      rw [is_port_available] at havail
      simp only [Bool.and_eq_true, Bool.not_eq_true', decide_eq_false_iff_not] at havail
      exact havail.2 (mem_markAllPorts.mpr (Or.inl hp1))

/-- Witness for the C2 amended theorem: attempts drawing bases 2000 and 3000
run atomically one after the other; both succeed and their PortSets are
disjoint. -/
theorem atomic_allocation_disjoint_witness :
    Disjoint (portsOf racePorts) (portsOf racePorts2) :=
  atomic_allocation_disjoint (fun _ => true) [2000] [3000] ∅ racePorts racePorts2
    (by decide) (by decide)

end TestValidatorRunnerModel
